import Mathlib

/-!
Shallow embedding of the moving-object transport subsystem of the game server
(source files: src/game/TransportMgr.cpp, src/game/TransportSystem.cpp,
src/game/Transports.cpp, src/game/TransportMgr.h) together with proofs about
its specification.

Modelling conventions:
* floating-point values are modelled exactly as rationals, or as reals where
  trigonometric functions of symbolic angles are required; definitions that
  need both are stated over a linear ordered field;
* a C++ `float`-to-`int32` conversion truncates toward zero (`ratTrunc`);
* `uint32` arithmetic is modelled modulo 2^32 (`usub`);
* `std::map` containers are modelled as association lists;
* fatal `MANGOS_ASSERT` checks are modelled as `Except.error` results.
-/

/-- C-style truncation toward zero of a rational number, as performed by a
`float` to `int32` conversion in the source. -/
def ratTrunc (x : ℚ) : Int := if 0 ≤ x then ⌊x⌋ else -⌊-x⌋

/-- Unsigned 32-bit subtraction `a - b`, as in C++ `uint32` arithmetic. -/
def usub (a b : Nat) : Nat :=
  (a % 4294967296 + 4294967296 - b % 4294967296) % 4294967296

/-- Association-list lookup, modelling `std::map::find`. -/
def alookup {β : Type} (k : Nat) : List (Nat × β) → Option β
  | [] => none
  | (k2, v) :: rest => if k = k2 then some v else alookup k rest

/-- Association-list erase, modelling `std::map::erase` of a key. -/
def aerase {β : Type} (k : Nat) : List (Nat × β) → List (Nat × β)
  | [] => []
  | (k2, v) :: rest => if k = k2 then rest else (k2, v) :: aerase k rest

/-- Association-list overwrite, modelling `std::map::operator[] =`. -/
def aset {β : Type} (k : Nat) (v : β) (m : List (Nat × β)) : List (Nat × β) :=
  (k, v) :: aerase k m

/-- TransportBase::RotateLocalPosition (TransportSystem.cpp): rotates the local
offset `(lx, ly)` by the transporter's orientation, using the cached cosine and
sine of the orientation. -/
def RotateLocalPosition {α : Type} [CommRing α] (cosO sinO lx ly : α) : α × α :=
  (lx * cosO - ly * sinO, lx * sinO + ly * cosO)

/-- TransportBase::NormalizeRotatedPosition (TransportSystem.cpp 122-126),
transcribed exactly as written in the source:
`lx = rx * -m_cosO - ry * -m_sinO; ly = rx * -m_sinO + ry * -m_cosO;`. -/
def NormalizeRotatedPosition {α : Type} [CommRing α] (cosO sinO rx ry : α) : α × α :=
  (rx * -cosO - ry * -sinO, rx * -sinO + ry * -cosO)

/-- Modelled from the spec: `MapManager::NormalizeOrientation` (MapManager is
not under src/) wraps an angle into the interval `[0, twoPi)`; the source uses
the float constant 2π for `twoPi`, which is kept as a parameter so that the
definition is meaningful over both ℚ and ℝ. -/
def NormalizeOrientation {α : Type} [LinearOrderedField α] [FloorRing α]
    (twoPi o : α) : α :=
  o - twoPi * ⌊o / twoPi⌋

/-- TransportBase::CalculateGlobalPositionOf (TransportSystem.cpp): rotate the
local offset by the cached orientation, then translate by the owner position
`(x, y, z)`; `gz = lz + z`; `go = NormalizeOrientation(lo + o)`. -/
def CalculateGlobalPositionOf {α : Type} [LinearOrderedField α] [FloorRing α]
    (twoPi x y z o cosO sinO lx ly lz lo : α) : α × α × α × α :=
  let r := RotateLocalPosition cosO sinO lx ly
  (r.1 + x, r.2 + y, lz + z, NormalizeOrientation twoPi (lo + o))

/-- Claim C4 (code bug): the claimed round trip
`NormalizeRotatedPosition ∘ RotateLocalPosition = id` (within 1e-4) fails on
the code. NormalizeRotatedPosition computes the negation of the forward
rotation (a rotation by orientation + π) instead of the rotation by minus the
orientation that its own comment announces, so at orientation 0 (cosO = 1,
sinO = 0) the local offset (1, 0) is rotated to (1, 0) and then
"inverse"-transformed to (-1, 0): an error of 2. -/
theorem normalizeRotatedPosition_roundtrip_bug :
    NormalizeRotatedPosition (1 : ℚ) 0 (RotateLocalPosition (1 : ℚ) 0 1 0).1
        (RotateLocalPosition (1 : ℚ) 0 1 0).2 = (-1, 0) ∧
      (1 : ℚ) / 10000 <
        |(NormalizeRotatedPosition (1 : ℚ) 0 (RotateLocalPosition (1 : ℚ) 0 1 0).1
          (RotateLocalPosition (1 : ℚ) 0 1 0).2).1 - 1| := by
  have h1 : (NormalizeRotatedPosition (1 : ℚ) 0 (RotateLocalPosition (1 : ℚ) 0 1 0).1
      (RotateLocalPosition (1 : ℚ) 0 1 0).2) = (-1, 0) := by
    simp only [NormalizeRotatedPosition, RotateLocalPosition, Prod.mk.injEq]
    norm_num
  refine ⟨h1, ?_⟩
  rw [h1]
  norm_num

/-- Claim C5: with a fresh orientation cache (cosO = cos o, sinO = sin o) the
global position of a passenger slot is
`(x + lx·cos o − ly·sin o, y + lx·sin o + ly·cos o, z + lz, normalize (o + lo))`;
in particular local (1,2,3,0) on a carrier at (100, 200, 0, π/2) gives
(100 − 2, 200 + 1, 3, π/2). -/
theorem calculateGlobalPositionOf_formula :
    (∀ x y z o lx ly lz lo : ℝ,
        CalculateGlobalPositionOf (2 * Real.pi) x y z o (Real.cos o) (Real.sin o)
            lx ly lz lo =
          (x + lx * Real.cos o - ly * Real.sin o,
            y + lx * Real.sin o + ly * Real.cos o,
            z + lz, NormalizeOrientation (2 * Real.pi) (o + lo))) ∧
      CalculateGlobalPositionOf (2 * Real.pi) 100 200 0 (Real.pi / 2)
          (Real.cos (Real.pi / 2)) (Real.sin (Real.pi / 2)) 1 2 3 0 =
        (100 - 2, 200 + 1, 3, Real.pi / 2) := by
  have hfloor : ⌊(Real.pi / 2) / (2 * Real.pi)⌋ = 0 := by
    have h4 : (Real.pi / 2) / (2 * Real.pi) = 1 / 4 := by
      have hπ : Real.pi ≠ 0 := Real.pi_ne_zero
      field_simp
      ring
    rw [h4, Int.floor_eq_zero_iff]
    constructor <;> norm_num
  constructor
  · intro x y z o lx ly lz lo
    simp only [CalculateGlobalPositionOf, RotateLocalPosition, Prod.mk.injEq]
    refine ⟨by ring, by ring, by ring, by rw [add_comm]⟩
  · simp only [CalculateGlobalPositionOf, RotateLocalPosition,
      NormalizeOrientation, Real.cos_pi_div_two, Real.sin_pi_div_two,
      Prod.mk.injEq, zero_add, hfloor]
    refine ⟨by ring, by ring, by ring, by push_cast; ring⟩

/-- TransportInfo (TransportSystem.cpp 567-574): the slot object built by
`TransportInfo(owner, transport, lx, ly, lz, lo, seat)`; the owner and the
owning transport are identified by their ids. -/
structure TransportInfo where
  owner : Nat
  transport : Nat
  lx : ℚ
  ly : ℚ
  lz : ℚ
  lo : ℚ
  seat : Nat
deriving DecidableEq

/-- The aspects of a WorldObject that the transport system reads and writes:
whether its guid is a unit, the transport-info back-reference installed by
SetTransportInfo, and the MOVEFLAG_ONTRANSPORT movement flag. -/
structure WorldObject where
  id : Nat
  isUnit : Bool
  transportInfo : Option TransportInfo
  onTransportFlag : Bool
deriving DecidableEq

/-- WorldObject::IsBoarded: the transport-info back-reference is installed. -/
def IsBoarded (p : WorldObject) : Bool := p.transportInfo.isSome

/-- The passenger-frame state of one carrier: its identity and its
m_passengers map (TransportBase). -/
structure TransportBase where
  cid : Nat
  passengers : List (Nat × TransportInfo)
deriving DecidableEq

/-- TransportBase::BoardPassenger (TransportSystem.cpp 158-167): build the
TransportInfo, insert it into m_passengers (`std::map::insert` does not
overwrite an existing key), and install the back-reference on the passenger. -/
def BoardPassengerBase (c : TransportBase) (p : WorldObject) (lx ly lz lo : ℚ)
    (seat : Nat) : TransportBase × WorldObject :=
  let info : TransportInfo := ⟨p.id, c.cid, lx, ly, lz, lo, seat⟩
  (⟨c.cid, if (alookup p.id c.passengers).isSome then c.passengers
           else (p.id, info) :: c.passengers⟩,
   { p with transportInfo := some info })

/-- TransportBase::UnBoardPassenger (TransportSystem.cpp 169-184): when the
passenger is found in m_passengers, clear its back-reference and erase it;
otherwise do nothing. -/
def UnBoardPassengerBase (c : TransportBase) (p : WorldObject) :
    TransportBase × WorldObject :=
  match alookup p.id c.passengers with
  | none => (c, p)
  | some _ =>
    (⟨c.cid, aerase p.id c.passengers⟩, { p with transportInfo := none })

/-- Transport::BoardPassenger (Transports.cpp 473-493), identical in logic to
GOTransportBase::Board (TransportSystem.cpp 197-217): reject a passenger that
is still boarded anywhere; reject a local offset with any coordinate magnitude
above 50; otherwise board with seat 255 and set MOVEFLAG_ONTRANSPORT when the
passenger's guid is a unit. Result is (return value, carrier, passenger). -/
def BoardPassenger (c : TransportBase) (p : WorldObject) (lx ly lz lo : ℚ) :
    Bool × TransportBase × WorldObject :=
  if IsBoarded p then (false, c, p)
  else if 50 < |lx| ∨ 50 < |ly| ∨ 50 < |lz| then (false, c, p)
  else
    let bp := BoardPassengerBase c p lx ly lz lo 255
    let p2 := if p.isUnit then { bp.2 with onTransportFlag := true } else bp.2
    (true, bp.1, p2)

/-- Transport::UnBoardPassenger (Transports.cpp 495-510), identical in logic
to GOTransportBase::UnBoard: reject a passenger that is not boarded; otherwise
clear the movement flag (for units) and run the base unboard. -/
def UnBoardPassengerOp (c : TransportBase) (p : WorldObject) :
    Bool × TransportBase × WorldObject :=
  if IsBoarded p = false then (false, c, p)
  else
    let p1 := if p.isUnit then { p with onTransportFlag := false } else p
    let ub := UnBoardPassengerBase c p1
    (true, ub.1, ub.2)

/-- Claim C2 (counterexample): boarding an unboarded non-unit world object at
local offset (0,0,0,0) returns true but does not set the on-transport flag;
the claim's "otherwise returns true after inserting P's slot, setting P's
on-transport flag, and installing P's back-reference" is therefore false for
non-unit passengers (the source guards the flag with
`passenger->GetObjectGuid().IsUnit()`). -/
theorem boardPassenger_flag_ce :
    (BoardPassenger ⟨1, []⟩ ⟨7, false, none, false⟩ 0 0 0 0).1 = true ∧
      ((BoardPassenger ⟨1, []⟩ ⟨7, false, none, false⟩ 0 0 0 0).2.2).onTransportFlag
        = false := by
  constructor <;>
    norm_num [BoardPassenger, IsBoarded, BoardPassengerBase, alookup]

/-- Claim C2 (amended): board returns false when the passenger is already
boarded on any carrier; returns false when |lx| > 50 or |ly| > 50 or |lz| > 50
(in particular board(P, 51, 0, 0, 0) returns false and leaves P unboarded);
otherwise it returns true after inserting P's slot and installing P's
back-reference to the slot, and it sets the on-transport movement flag exactly
when P is a unit. -/
theorem boardPassenger_amended :
    ∀ (c : TransportBase) (p : WorldObject) (lx ly lz lo : ℚ),
      (IsBoarded p = true → BoardPassenger c p lx ly lz lo = (false, c, p)) ∧
      (IsBoarded p = false → (50 < |lx| ∨ 50 < |ly| ∨ 50 < |lz|) →
        BoardPassenger c p lx ly lz lo = (false, c, p)) ∧
      (IsBoarded p = false → |lx| ≤ 50 → |ly| ≤ 50 → |lz| ≤ 50 →
        alookup p.id c.passengers = none →
        BoardPassenger c p lx ly lz lo =
          (true,
            ⟨c.cid, (p.id, ⟨p.id, c.cid, lx, ly, lz, lo, 255⟩) :: c.passengers⟩,
            { p with
                transportInfo := some ⟨p.id, c.cid, lx, ly, lz, lo, 255⟩,
                onTransportFlag := (p.isUnit || p.onTransportFlag) })) := by
  intro c p lx ly lz lo
  refine ⟨?_, ?_, ?_⟩
  · intro h
    simp [BoardPassenger, h]
  · intro h hout
    rw [BoardPassenger, if_neg (by simp [h]), if_pos hout]
  · intro h h1 h2 h3 h4
    have hout : ¬(50 < |lx| ∨ 50 < |ly| ∨ 50 < |lz|) := by
      push_neg
      exact ⟨h1, h2, h3⟩
    rw [BoardPassenger, if_neg (by simp [h]), if_neg hout]
    simp only [BoardPassengerBase, h4, Option.isSome_none, Bool.false_eq_true,
      if_false, Prod.mk.injEq]
    cases hu : p.isUnit <;> simp

/-- Witness for the amended claim C2: the spec's scenario S4,
board(P, 51, 0, 0, 0) on an unboarded unit passenger returns false and leaves
everything unchanged. -/
theorem boardPassenger_amended_witness :
    BoardPassenger ⟨1, []⟩ ⟨7, true, none, false⟩ 51 0 0 0 =
      (false, ⟨1, []⟩, ⟨7, true, none, false⟩) :=
  (boardPassenger_amended ⟨1, []⟩ ⟨7, true, none, false⟩ 51 0 0 0).2.1
    (by rfl) (Or.inl (by rw [abs_of_nonneg (by norm_num)]; norm_num))

theorem alookup_aerase_ne {β : Type} (k k2 : Nat) (m : List (Nat × β))
    (h : k ≠ k2) : alookup k (aerase k2 m) = alookup k m := by
  induction m with
  | nil => rfl
  | cons hd tl ih =>
    obtain ⟨k3, v⟩ := hd
    by_cases h2 : k2 = k3
    · subst h2
      simp [aerase, alookup, h]
    · simp only [aerase, if_neg h2, alookup]
      by_cases h3 : k = k3
      · simp [h3]
      · simp [h3, ih]

theorem alookup_aset_self {β : Type} (k : Nat) (v : β) (m : List (Nat × β)) :
    alookup k (aset k v m) = some v := by
  simp [aset, alookup]

theorem alookup_aset_ne {β : Type} (k k2 : Nat) (v : β) (m : List (Nat × β))
    (h : k ≠ k2) : alookup k (aset k2 v m) = alookup k m := by
  simp only [aset, alookup, if_neg h]
  exact alookup_aerase_ne k k2 m h

/-- The multi-carrier world state used to express the passenger/back-reference
invariant: every live carrier's m_passengers map, keyed by carrier id, and the
back-reference each world object holds through SetTransportInfo. -/
structure TransportWorld where
  carriers : List (Nat × List (Nat × TransportInfo))
  backrefs : List (Nat × TransportInfo)
deriving DecidableEq

/-- The C10 invariant: a world object is a key of a carrier's passenger map
exactly when the object's back-reference is the very TransportInfo stored
against it in that map and that info's transport pointer is this carrier. -/
def PassengerInv (w : TransportWorld) : Prop :=
  ∀ cid cmap, alookup cid w.carriers = some cmap →
    ∀ pid info,
      (alookup pid cmap = some info ↔
        (alookup pid w.backrefs = some info ∧ info.transport = cid))

/-- GOTransportBase::Board followed by TransportBase::BoardPassenger, acting on
the world state: the already-boarded and out-of-bounds guards reject, otherwise
the slot is inserted into the carrier's map and the back-reference installed
(both updates of the same call, i.e. atomically with respect to other
operations). -/
def BoardOn (w : TransportWorld) (cid pid : Nat) (lx ly lz lo : ℚ) :
    TransportWorld :=
  match alookup cid w.carriers with
  | none => w
  | some cmap =>
    if (alookup pid w.backrefs).isSome then w
    else if 50 < |lx| ∨ 50 < |ly| ∨ 50 < |lz| then w
    else
      let info : TransportInfo := ⟨pid, cid, lx, ly, lz, lo, 255⟩
      let cmap2 := if (alookup pid cmap).isSome then cmap
                   else (pid, info) :: cmap
      ⟨aset cid cmap2 w.carriers, aset pid info w.backrefs⟩

/-- GOTransportBase::UnBoard followed by TransportBase::UnBoardPassenger,
acting on the world state: an unboarded passenger is rejected, a passenger not
found in this carrier's map is left alone, and otherwise the slot is erased
and the back-reference cleared in the same call. -/
def UnBoardOn (w : TransportWorld) (cid pid : Nat) : TransportWorld :=
  match alookup cid w.carriers with
  | none => w
  | some cmap =>
    if (alookup pid w.backrefs).isSome = false then w
    else
      match alookup pid cmap with
      | none => w
      | some _ => ⟨aset cid (aerase pid cmap) w.carriers, aerase pid w.backrefs⟩

theorem alookup_cons_self {β : Type} (k : Nat) (v : β) (m : List (Nat × β)) :
    alookup k ((k, v) :: m) = some v := by
  simp [alookup]

theorem alookup_cons_ne {β : Type} (k k2 : Nat) (v : β) (m : List (Nat × β))
    (h : k ≠ k2) : alookup k ((k2, v) :: m) = alookup k m := by
  simp [alookup, h]

theorem alookup_eq_none_iff {β : Type} (k : Nat) (m : List (Nat × β)) :
    alookup k m = none ↔ k ∉ m.map Prod.fst := by
  induction m with
  | nil => simp [alookup]
  | cons hd tl ih =>
    obtain ⟨k2, v⟩ := hd
    by_cases h : k = k2 <;> simp [alookup, h, ih]

theorem aerase_keys_sublist {β : Type} (k : Nat) (m : List (Nat × β)) :
    ((aerase k m).map Prod.fst).Sublist (m.map Prod.fst) := by
  induction m with
  | nil => simp [aerase]
  | cons hd tl ih =>
    obtain ⟨k2, v⟩ := hd
    by_cases h : k = k2
    · rw [aerase, if_pos h]
      simp only [List.map_cons]
      exact List.sublist_cons_self _ _
    · rw [aerase, if_neg h]
      simp only [List.map_cons]
      exact List.Sublist.cons₂ _ ih

theorem aerase_keys_nodup {β : Type} (k : Nat) (m : List (Nat × β))
    (h : (m.map Prod.fst).Nodup) : ((aerase k m).map Prod.fst).Nodup :=
  List.Nodup.sublist (aerase_keys_sublist k m) h

theorem alookup_aerase_self_nodup {β : Type} (k : Nat) (m : List (Nat × β))
    (h : (m.map Prod.fst).Nodup) : alookup k (aerase k m) = none := by
  induction m with
  | nil => rfl
  | cons hd tl ih =>
    obtain ⟨k2, v⟩ := hd
    simp only [List.map_cons, List.nodup_cons] at h
    by_cases h2 : k = k2
    · rw [aerase, if_pos h2, alookup_eq_none_iff]
      subst h2
      exact h.1
    · rw [aerase, if_neg h2, alookup_cons_ne _ _ _ _ h2]
      exact ih h.2

/-- Well-formedness of the world state: each passenger map and the
back-reference table have no duplicate keys (as `std::map` guarantees). -/
def WorldWF (w : TransportWorld) : Prop :=
  (∀ cid cmap, alookup cid w.carriers = some cmap →
    (cmap.map Prod.fst).Nodup) ∧
  (w.backrefs.map Prod.fst).Nodup

/-- Claim C10: for every carrier C and world object P, P is a key of C's
passenger map iff P's back-reference is the very TransportInfo stored against
P in that map and that info's transport pointer is C; board establishes both
sides in one call and unboard removes both sides in one call, so the invariant
is preserved by both operations (together with well-formedness of the maps). -/
theorem passenger_backref_invariant :
    ∀ (w : TransportWorld) (cid pid : Nat) (lx ly lz lo : ℚ),
      PassengerInv w → WorldWF w →
      (PassengerInv (BoardOn w cid pid lx ly lz lo) ∧
        WorldWF (BoardOn w cid pid lx ly lz lo)) ∧
      (PassengerInv (UnBoardOn w cid pid) ∧ WorldWF (UnBoardOn w cid pid)) ∧
      (∀ cmap, alookup cid w.carriers = some cmap →
        alookup pid w.backrefs = none →
        |lx| ≤ 50 → |ly| ≤ 50 → |lz| ≤ 50 →
        alookup cid (BoardOn w cid pid lx ly lz lo).carriers =
          some ((pid, ⟨pid, cid, lx, ly, lz, lo, 255⟩) :: cmap) ∧
        alookup pid (BoardOn w cid pid lx ly lz lo).backrefs =
          some ⟨pid, cid, lx, ly, lz, lo, 255⟩) ∧
      (∀ cmap info, alookup cid w.carriers = some cmap →
        alookup pid w.backrefs = some info → info.transport = cid →
        alookup cid (UnBoardOn w cid pid).carriers = some (aerase pid cmap) ∧
        alookup pid (UnBoardOn w cid pid).backrefs = none) := by
  intro w cid pid lx ly lz lo hInv hWF
  obtain ⟨hWFc, hWFb⟩ := hWF
  refine ⟨?_, ?_, ?_, ?_⟩
  · -- board preserves the invariant and well-formedness
    cases hc : alookup cid w.carriers with
    | none =>
      have hbw : BoardOn w cid pid lx ly lz lo = w := by
        simp [BoardOn, hc]
      rw [hbw]
      exact ⟨hInv, hWFc, hWFb⟩
    | some cmap =>
      cases hx : alookup pid w.backrefs with
      | some i =>
        have hbw : BoardOn w cid pid lx ly lz lo = w := by
          simp [BoardOn, hc, hx]
        rw [hbw]
        exact ⟨hInv, hWFc, hWFb⟩
      | none =>
        by_cases ho : (50 < |lx| ∨ 50 < |ly| ∨ 50 < |lz|)
        · have hbw : BoardOn w cid pid lx ly lz lo = w := by
            simp [BoardOn, hc, hx, ho]
          rw [hbw]
          exact ⟨hInv, hWFc, hWFb⟩
        · have hpm : alookup pid cmap = none := by
            cases hy : alookup pid cmap with
            | none => rfl
            | some i =>
              have h2 := (hInv cid cmap hc pid i).mp hy
              rw [hx] at h2
              exact absurd h2.1 (by simp)
          have hbw : BoardOn w cid pid lx ly lz lo =
              ⟨aset cid ((pid, ⟨pid, cid, lx, ly, lz, lo, 255⟩) :: cmap) w.carriers,
                aset pid ⟨pid, cid, lx, ly, lz, lo, 255⟩ w.backrefs⟩ := by
            simp [BoardOn, hc, hx, ho, hpm]
          rw [hbw]
          constructor
          · intro cid2 cmap2 hc2 pid2 info2
            by_cases hcc : cid2 = cid
            · subst hcc
              rw [alookup_aset_self] at hc2
              injection hc2 with hc2
              subst hc2
              by_cases hpp : pid2 = pid
              · subst hpp
                rw [alookup_cons_self, alookup_aset_self]
                constructor
                · intro h
                  injection h with h
                  subst h
                  exact ⟨rfl, rfl⟩
                · intro h
                  exact h.1
              · rw [alookup_cons_ne _ _ _ _ hpp, alookup_aset_ne _ _ _ _ hpp]
                exact hInv cid2 cmap hc pid2 info2
            · rw [alookup_aset_ne _ _ _ _ hcc] at hc2
              by_cases hpp : pid2 = pid
              · subst hpp
                rw [alookup_aset_self]
                constructor
                · intro h
                  have h2 := (hInv cid2 cmap2 hc2 pid2 info2).mp h
                  rw [hx] at h2
                  exact absurd h2.1 (by simp)
                · intro h
                  obtain ⟨h1, h2⟩ := h
                  injection h1 with h1
                  rw [← h1] at h2
                  exact absurd (h2 : cid = cid2).symm hcc
              · rw [alookup_aset_ne _ _ _ _ hpp]
                exact hInv cid2 cmap2 hc2 pid2 info2
          · constructor
            · intro cid2 cmap2 hc2
              by_cases hcc : cid2 = cid
              · subst hcc
                rw [alookup_aset_self] at hc2
                injection hc2 with hc2
                subst hc2
                simp only [List.map_cons, List.nodup_cons]
                exact ⟨(alookup_eq_none_iff pid cmap).mp hpm, hWFc cid2 cmap hc⟩
              · rw [alookup_aset_ne _ _ _ _ hcc] at hc2
                exact hWFc cid2 cmap2 hc2
            · simp only [aset, List.map_cons, List.nodup_cons]
              exact ⟨(alookup_eq_none_iff _ _).mp
                  (alookup_aerase_self_nodup pid w.backrefs hWFb),
                aerase_keys_nodup pid w.backrefs hWFb⟩
  · -- unboard preserves the invariant and well-formedness
    cases hc : alookup cid w.carriers with
    | none =>
      have hbw : UnBoardOn w cid pid = w := by
        simp [UnBoardOn, hc]
      rw [hbw]
      exact ⟨hInv, hWFc, hWFb⟩
    | some cmap =>
      cases hx : alookup pid w.backrefs with
      | none =>
        have hbw : UnBoardOn w cid pid = w := by
          simp [UnBoardOn, hc, hx]
        rw [hbw]
        exact ⟨hInv, hWFc, hWFb⟩
      | some i =>
        cases hy : alookup pid cmap with
        | none =>
          have hbw : UnBoardOn w cid pid = w := by
            simp [UnBoardOn, hc, hx, hy]
          rw [hbw]
          exact ⟨hInv, hWFc, hWFb⟩
        | some j =>
          have hji := (hInv cid cmap hc pid j).mp hy
          rw [hx] at hji
          have hbw : UnBoardOn w cid pid =
              ⟨aset cid (aerase pid cmap) w.carriers, aerase pid w.backrefs⟩ := by
            simp [UnBoardOn, hc, hx, hy]
          rw [hbw]
          constructor
          · intro cid2 cmap2 hc2 pid2 info2
            by_cases hcc : cid2 = cid
            · subst hcc
              rw [alookup_aset_self] at hc2
              injection hc2 with hc2
              subst hc2
              by_cases hpp : pid2 = pid
              · subst hpp
                rw [alookup_aerase_self_nodup pid2 cmap (hWFc cid2 cmap hc),
                  alookup_aerase_self_nodup pid2 w.backrefs hWFb]
                simp
              · rw [alookup_aerase_ne _ _ _ hpp, alookup_aerase_ne _ _ _ hpp]
                exact hInv cid2 cmap hc pid2 info2
            · rw [alookup_aset_ne _ _ _ _ hcc] at hc2
              by_cases hpp : pid2 = pid
              · subst hpp
                rw [alookup_aerase_self_nodup pid2 w.backrefs hWFb]
                constructor
                · intro h
                  have h2 := (hInv cid2 cmap2 hc2 pid2 info2).mp h
                  rw [hx] at h2
                  obtain ⟨h21, h22⟩ := h2
                  injection h21 with h21
                  rw [← h21] at h22
                  obtain ⟨hji1, hji2⟩ := hji
                  injection hji1 with hij
                  rw [← hij] at hji2
                  exact absurd (h22.symm.trans hji2) hcc
                · intro h
                  exact absurd h.1 (by simp)
              · rw [alookup_aerase_ne _ _ _ hpp]
                exact hInv cid2 cmap2 hc2 pid2 info2
          · constructor
            · intro cid2 cmap2 hc2
              by_cases hcc : cid2 = cid
              · subst hcc
                rw [alookup_aset_self] at hc2
                injection hc2 with hc2
                subst hc2
                exact aerase_keys_nodup pid cmap (hWFc cid2 cmap hc)
              · rw [alookup_aset_ne _ _ _ _ hcc] at hc2
                exact hWFc cid2 cmap2 hc2
            · exact aerase_keys_nodup pid w.backrefs hWFb
  · -- successful board establishes both sides
    intro cmap hc hx h1 h2 h3
    have ho : ¬(50 < |lx| ∨ 50 < |ly| ∨ 50 < |lz|) := by
      push_neg
      exact ⟨h1, h2, h3⟩
    have hpm : alookup pid cmap = none := by
      cases hy : alookup pid cmap with
      | none => rfl
      | some i =>
        have h4 := (hInv cid cmap hc pid i).mp hy
        rw [hx] at h4
        exact absurd h4.1 (by simp)
    have hbw : BoardOn w cid pid lx ly lz lo =
        ⟨aset cid ((pid, ⟨pid, cid, lx, ly, lz, lo, 255⟩) :: cmap) w.carriers,
          aset pid ⟨pid, cid, lx, ly, lz, lo, 255⟩ w.backrefs⟩ := by
      simp [BoardOn, hc, hx, ho, hpm]
    rw [hbw]
    exact ⟨alookup_aset_self _ _ _, alookup_aset_self _ _ _⟩
  · -- unboard removes both sides
    intro cmap info hc hx ht
    have hy : alookup pid cmap = some info :=
      (hInv cid cmap hc pid info).mpr ⟨hx, ht⟩
    have hbw : UnBoardOn w cid pid =
        ⟨aset cid (aerase pid cmap) w.carriers, aerase pid w.backrefs⟩ := by
      simp [UnBoardOn, hc, hx, hy]
    rw [hbw]
    exact ⟨alookup_aset_self _ _ _, alookup_aerase_self_nodup pid w.backrefs hWFb⟩

/-- Witness for claim C10: in a world with one empty carrier (id 1), boarding
object 7 at local (1, 2, 3, 0) installs the slot and the back-reference. -/
theorem passenger_backref_invariant_witness :
    alookup 1 (BoardOn ⟨[(1, [])], []⟩ 1 7 1 2 3 0).carriers =
        some [(7, ⟨7, 1, 1, 2, 3, 0, 255⟩)] ∧
      alookup 7 (BoardOn ⟨[(1, [])], []⟩ 1 7 1 2 3 0).backrefs =
        some ⟨7, 1, 1, 2, 3, 0, 255⟩ :=
  (passenger_backref_invariant ⟨[(1, [])], []⟩ 1 7 1 2 3 0
    (by
      intro cid cmap h pid info
      by_cases hc : cid = 1
      · subst hc
        rw [alookup_cons_self] at h
        injection h with h
        subst h
        simp [alookup]
      · rw [alookup_cons_ne _ _ _ _ hc] at h
        simp [alookup] at h)
    (by
      constructor
      · intro cid cmap h
        by_cases hc : cid = 1
        · subst hc
          rw [alookup_cons_self] at h
          injection h with h
          subst h
          simp
        · rw [alookup_cons_ne _ _ _ _ hc] at h
          simp [alookup] at h
      · simp)).2.2.1 [] rfl rfl (by norm_num) (by norm_num) (by norm_num)

/-- A world-space position, as G3D::Vector3 in the source. -/
structure Vec3 where
  x : ℚ
  y : ℚ
  z : ℚ
deriving DecidableEq

/-- TaxiPathNodeEntry: one raw taxi-path node (external DBC input). -/
structure TaxiPathNode where
  mapid : Nat
  x : ℚ
  y : ℚ
  z : ℚ
  delay : Nat
  actionFlag : Nat
  arrivalEventID : Nat
  departureEventID : Nat
deriving DecidableEq

/-- The fields of GameObjectInfo that TransportMgr::InsertTransporter reads. -/
structure GameObjectInfo where
  id : Nat
  goType : Nat
  taxiPathId : Nat
  moveSpeed : ℚ
deriving DecidableEq

/-- The game-object type tag of massive moving transports. -/
def GAMEOBJECT_TYPE_MO_TRANSPORT : Nat := 15

/-- Modelled from the spec (§4.1): the Movement::Spline built by init_spline in
Catmull-Rom mode (movement/spline.h is not under src/). It keeps the control
points of one map's run; per the spec, `first()` is the first interior knot
(the padding added at the ends is excluded), so `getPoint(first())` is the
first control point. -/
structure SplineModel where
  controls : List Vec3
deriving DecidableEq

/-- Modelled from the spec (§4.1): `getPoint(first())`, the first control point
of the spline. -/
def SplineModel.firstPoint (s : SplineModel) : Vec3 := s.controls.headD ⟨0, 0, 0⟩

/-- InitCacher (TransportMgr.cpp 72-88) folded over the spline's segments by
`initLengths`: the running time starts at 1 and each segment adds
`SegLength(i) * (1000 / moveSpeed)`, the sum being truncated to int32 when
stored; the spline's `length()` is the final value. The world-space segment
lengths (`SegLength`) are an input, because the Catmull-Rom arc-length
computation lives in movement/spline.h, outside src/. -/
def splineLength (moveSpeed : ℚ) (segLens : List ℚ) : Int :=
  segLens.foldl (fun t l => ratTrunc ((t : ℚ) + l * (1000 / moveSpeed))) 1

/-- The state of the path-splitting loop of TransportMgr::InsertTransporter:
the current run index j, the mapIDs array, the transportPaths arrays, and the
delay milliseconds accumulated into the period so far. -/
structure SplitState where
  j : Nat
  mapIDs : List Nat
  paths : List (List Vec3)
  delayMs : Nat
deriving DecidableEq

/-- One iteration of the path-splitting loop (TransportMgr.cpp 51-63): advance
j and record the new map id when the node's map differs from mapIDs[j], push
the node's position onto transportPaths[j], and add delay seconds times 1000
for nodes with a delay. -/
def splitStep (st : SplitState) (n : TaxiPathNode) : SplitState :=
  if n.mapid = st.mapIDs.getD st.j 0 then
    { st with
        paths := st.paths.set st.j (st.paths.getD st.j [] ++ [⟨n.x, n.y, n.z⟩]),
        delayMs :=
          if n.delay ≠ 0 then st.delayMs + n.delay * 1000 else st.delayMs }
  else
    { j := st.j + 1,
      mapIDs := st.mapIDs.set (st.j + 1) n.mapid,
      paths := st.paths.set (st.j + 1)
        (st.paths.getD (st.j + 1) [] ++ [⟨n.x, n.y, n.z⟩]),
      delayMs :=
        if n.delay ≠ 0 then st.delayMs + n.delay * 1000 else st.delayMs }

/-- The fatal MANGOS_ASSERT checks of TransportMgr::InsertTransporter. -/
inductive InsertError
  | badTemplate
  | emptyPath
  | degenerateSpline
deriving DecidableEq

/-- StaticTransportInfo (TransportMgr.cpp): per-entry compiled data — the
mapIDs array, the per-map splines, and the period. -/
structure StaticTransportInfo where
  goInfoId : Nat
  mapIDs : List Nat
  splines : List SplineModel
  period : Nat
deriving DecidableEq

/-- TransportMgr::InsertTransporter (TransportMgr.cpp 37-99) with
MAX_MAPS_PER_MOT = 2 (the repository's value; the defining header is not under
src/). The mapIDs array starts filled with path[0].mapid; the path is split
into per-map runs while delay seconds are accumulated as milliseconds; one
spline per distinct run is built, its length (initialised at 1 by InitCacher)
is asserted to exceed 1 and added to the period. `MANGOS_ASSERT` failures are
fatal and appear as errors; `pathTableSize` models
sTaxiPathNodesByPath.size(). -/
def InsertTransporter (segLenOf : List Vec3 → List ℚ) (pathTableSize : Nat)
    (goInfo : GameObjectInfo) (path : List TaxiPathNode) :
    Except InsertError StaticTransportInfo :=
  if ¬(goInfo.goType = GAMEOBJECT_TYPE_MO_TRANSPORT ∧
      goInfo.taxiPathId < pathTableSize) then
    .error .badTemplate
  else
    match path with
    | [] => .error .emptyPath
    | n0 :: _ =>
      let st := path.foldl splitStep ⟨0, [n0.mapid, n0.mapid], [[], []], 0⟩
      let len0 := splineLength goInfo.moveSpeed (segLenOf (st.paths.getD 0 []))
      if len0 ≤ 1 then .error .degenerateSpline
      else if st.mapIDs.getD 0 0 = st.mapIDs.getD 1 0 then
        .ok ⟨goInfo.id, st.mapIDs, [⟨st.paths.getD 0 []⟩],
          st.delayMs + len0.toNat⟩
      else
        let len1 := splineLength goInfo.moveSpeed (segLenOf (st.paths.getD 1 []))
        if len1 ≤ 1 then .error .degenerateSpline
        else
          .ok ⟨goInfo.id, st.mapIDs, [⟨st.paths.getD 0 []⟩, ⟨st.paths.getD 1 []⟩],
            st.delayMs + len0.toNat + len1.toNat⟩

/-- The per-map runs of a taxi path (contiguous nodes sharing a map id),
written independently of the source's loop, for stating claim C1. -/
def runsOf : List TaxiPathNode → List (Nat × List Vec3)
  | [] => []
  | n :: rest =>
    match runsOf rest with
    | [] => [(n.mapid, [⟨n.x, n.y, n.z⟩])]
    | (m, vs) :: rs =>
      if n.mapid = m then (m, ⟨n.x, n.y, n.z⟩ :: vs) :: rs
      else (n.mapid, [⟨n.x, n.y, n.z⟩]) :: (m, vs) :: rs

/-- The period exactly as claim C1 states it: the sum over all per-map splines
of a total accumulated from nothing but the per-segment times
`segment_length(i) * 1000 / moveSpeed`, plus 1000 times the sum of all node
delays, and no other term. -/
def claimedPeriodC1 (segLenOf : List Vec3 → List ℚ) (moveSpeed : ℚ)
    (path : List TaxiPathNode) : Int :=
  ((runsOf path).map (fun r =>
      (segLenOf r.2).foldl (fun t l => ratTrunc ((t : ℚ) + l * (1000 / moveSpeed))) 0)).sum
    + 1000 * (((path.map (fun n => n.delay)).sum : Nat) : Int)

theorem list_set_getD_self {γ : Type} :
    ∀ (l : List γ) (j : Nat) (d : γ), j < l.length → l.set j (l.getD j d) = l := by
  intro l
  induction l with
  | nil =>
    intro j d h
    simp at h
  | cons a t ih =>
    intro j d h
    cases j with
    | zero => rfl
    | succ j2 =>
      have h2 : j2 < t.length := by simpa using h
      show a :: t.set j2 (t.getD j2 d) = a :: t
      rw [ih j2 d h2]

theorem list_getD_set_self {γ : Type} :
    ∀ (l : List γ) (j : Nat) (a d : γ), j < l.length → (l.set j a).getD j d = a := by
  intro l
  induction l with
  | nil =>
    intro j a d h
    simp at h
  | cons b t ih =>
    intro j a d h
    cases j with
    | zero => rfl
    | succ j2 =>
      have h2 : j2 < t.length := by simpa using h
      show (t.set j2 a).getD j2 d = a
      exact ih j2 a d h2

/-- Folding the path-splitting loop over a run of nodes that all lie on the
map currently recorded at index j leaves j and the mapIDs array unchanged,
appends the run's positions to transportPaths[j], and accumulates the run's
delays. -/
theorem foldl_splitStep_same :
    ∀ (p : List TaxiPathNode) (m : Nat) (st : SplitState),
      (∀ n ∈ p, n.mapid = m) → st.mapIDs.getD st.j 0 = m →
      st.j < st.paths.length →
      p.foldl splitStep st =
        ⟨st.j, st.mapIDs,
          st.paths.set st.j (st.paths.getD st.j [] ++
            p.map (fun n => (⟨n.x, n.y, n.z⟩ : Vec3))),
          st.delayMs + (p.map (fun n => n.delay)).sum * 1000⟩ := by
  intro p
  induction p with
  | nil =>
    intro m st hm hj hlen
    simp only [List.foldl_nil, List.map_nil, List.append_nil, List.sum_nil,
      Nat.zero_mul, Nat.add_zero]
    rw [list_set_getD_self st.paths st.j [] hlen]
  | cons n t ih =>
    intro m st hm hj hlen
    rw [List.foldl_cons]
    have hn : n.mapid = m := hm n (List.mem_cons_self _ _)
    have hstep : splitStep st n =
        ⟨st.j, st.mapIDs,
          st.paths.set st.j (st.paths.getD st.j [] ++ [⟨n.x, n.y, n.z⟩]),
          st.delayMs + n.delay * 1000⟩ := by
      rw [splitStep, if_pos (by rw [hn, hj])]
      by_cases hd : n.delay = 0
      · simp [hd]
      · simp [hd]
    rw [hstep]
    have hih := ih m
      ⟨st.j, st.mapIDs,
        st.paths.set st.j (st.paths.getD st.j [] ++ [⟨n.x, n.y, n.z⟩]),
        st.delayMs + n.delay * 1000⟩
      (fun n2 h2 => hm n2 (List.mem_cons_of_mem _ h2)) hj
      (by simpa using hlen)
    rw [hih]
    simp only [List.set_set, list_getD_set_self st.paths st.j _ [] hlen,
      List.append_assoc, List.singleton_append, List.map_cons, List.sum_cons,
      Nat.add_mul, Nat.add_assoc]

/-- Claim C1 (amended): for a compiled transport entry the stored period is
the sum over the per-map splines of their total spline time plus 1000 times
the sum of all node delays, where each spline's total is accumulated starting
from the value 1 (InitCacher initialises its running time to 1 ms, so each
per-map spline contributes one extra millisecond) with each segment adding
segment_length(i) * 1000 / moveSpeed, truncated to int32. Paths of one run
(p1) or two runs on distinct maps (p1 then p2) are the shapes
MAX_MAPS_PER_MOT = 2 supports. -/
theorem insertTransporter_period_amended :
    ∀ (segLenOf : List Vec3 → List ℚ) (pathTableSize : Nat)
      (goInfo : GameObjectInfo) (p1 p2 : List TaxiPathNode) (m1 m2 : Nat)
      (info : StaticTransportInfo),
      p1 ≠ [] →
      (∀ n ∈ p1, n.mapid = m1) →
      (∀ n ∈ p2, n.mapid = m2) →
      (p2 ≠ [] → m2 ≠ m1) →
      InsertTransporter segLenOf pathTableSize goInfo (p1 ++ p2) = .ok info →
      (info.period : Int) =
        (if p2.isEmpty then
            splineLength goInfo.moveSpeed
              (segLenOf (p1.map (fun n => ⟨n.x, n.y, n.z⟩)))
          else
            splineLength goInfo.moveSpeed
              (segLenOf (p1.map (fun n => ⟨n.x, n.y, n.z⟩))) +
              splineLength goInfo.moveSpeed
                (segLenOf (p2.map (fun n => ⟨n.x, n.y, n.z⟩)))) +
          1000 * ((((p1 ++ p2).map (fun n => n.delay)).sum : Nat) : Int) := by
  intro segLenOf ts goInfo p1 p2 m1 m2 info hp1 hm1 hm2 hne hok
  cases p1 with
  | nil => exact absurd rfl hp1
  | cons n0 p1t =>
    have hn0 : n0.mapid = m1 := hm1 n0 (List.mem_cons_self _ _)
    have hj0 : ([n0.mapid, n0.mapid] : List Nat).getD 0 0 = m1 := by
      simpa using hn0
    cases p2 with
    | nil =>
      have hfold := foldl_splitStep_same (n0 :: p1t) m1
        ⟨0, [n0.mapid, n0.mapid], [[], []], 0⟩ hm1 hj0 (by norm_num)
      simp only [InsertTransporter, List.cons_append, List.append_nil] at hok
      rw [hfold] at hok
      simp only [List.set, List.getD_cons_zero, List.getD_cons_succ,
        List.nil_append, Nat.zero_add] at hok
      split_ifs at hok with hg hl0
      all_goals simp at hok
      subst hok
      simp at hl0 ⊢
      omega
    | cons n2 p2t =>
      have hm2n : n2.mapid = m2 := hm2 n2 (List.mem_cons_self _ _)
      have hne2 : m2 ≠ m1 := hne (by simp)
      have hnn : ¬(n2.mapid = n0.mapid) := by
        rw [hm2n, hn0]
        exact hne2
      have hfold1 := foldl_splitStep_same (n0 :: p1t) m1
        ⟨0, [n0.mapid, n0.mapid], [[], []], 0⟩ hm1 hj0 (by norm_num)
      simp only [InsertTransporter, List.cons_append] at hok
      have he : n0 :: (p1t ++ n2 :: p2t) = (n0 :: p1t) ++ (n2 :: p2t) := by simp
      rw [he, List.foldl_append, hfold1] at hok
      simp only [List.set, List.getD_cons_zero, List.getD_cons_succ,
        List.nil_append, Nat.zero_add] at hok
      rw [List.foldl_cons] at hok
      have hstep2 : splitStep
          ⟨0, [n0.mapid, n0.mapid],
            [(n0 :: p1t).map (fun n => (⟨n.x, n.y, n.z⟩ : Vec3)), []],
            ((n0 :: p1t).map (fun n => n.delay)).sum * 1000⟩ n2 =
          ⟨1, [n0.mapid, n2.mapid],
            [(n0 :: p1t).map (fun n => (⟨n.x, n.y, n.z⟩ : Vec3)),
              [⟨n2.x, n2.y, n2.z⟩]],
            ((n0 :: p1t).map (fun n => n.delay)).sum * 1000 + n2.delay * 1000⟩ := by
        rw [splitStep, if_neg (by simpa using hnn)]
        by_cases hd : n2.delay = 0 <;> simp [hd, List.set]
      rw [hstep2] at hok
      have hfold2 := foldl_splitStep_same p2t m2
        ⟨1, [n0.mapid, n2.mapid],
          [(n0 :: p1t).map (fun n => (⟨n.x, n.y, n.z⟩ : Vec3)),
            [⟨n2.x, n2.y, n2.z⟩]],
          ((n0 :: p1t).map (fun n => n.delay)).sum * 1000 + n2.delay * 1000⟩
        (fun n3 h3 => hm2 n3 (List.mem_cons_of_mem _ h3)) (by simpa using hm2n)
        (by norm_num)
      rw [hfold2] at hok
      simp only [List.set, List.getD_cons_zero, List.getD_cons_succ,
        List.nil_append, List.singleton_append, Nat.zero_add] at hok
      have hnn2 : ¬(n0.mapid = n2.mapid) := fun h => hnn h.symm
      simp only [hnn2, if_false] at hok
      split_ifs at hok with hg hl0 hl1
      all_goals simp at hok
      subst hok
      simp at hl0 hl1 ⊢
      omega

/-- A concrete two-node single-map taxi path: node delays 0 and 2 seconds. -/
def ceNodeA : TaxiPathNode := ⟨0, 0, 0, 0, 0, 0, 0, 0⟩

/-- Second node of the concrete path, with a 2-second delay. -/
def ceNodeB : TaxiPathNode := ⟨0, 3, 4, 0, 2, 0, 0, 0⟩

/-- A concrete segment-length oracle: every spline has one segment of length 1
world unit. -/
def ceSegLen : List Vec3 → List ℚ := fun _ => [1]

/-- A concrete transport template: entry 20808, MO_TRANSPORT, path 3,
moveSpeed 100 (so one world unit takes 10 ms). -/
def ceGoInfo : GameObjectInfo := ⟨20808, 15, 3, 100⟩

theorem insertTransporter_ce_eval :
    InsertTransporter ceSegLen 10 ceGoInfo [ceNodeA, ceNodeB] =
      .ok ⟨20808, [0, 0], [⟨[⟨0, 0, 0⟩, ⟨3, 4, 0⟩]⟩], 2011⟩ := by
  norm_num [InsertTransporter, ceSegLen, ceGoInfo, ceNodeA, ceNodeB,
    GAMEOBJECT_TYPE_MO_TRANSPORT, splitStep, splineLength, ratTrunc, List.set]
  decide

/-- Claim C1 (counterexample): on the concrete path above the source stores
period 2011 ms (delays 2000 + spline total 11, the 11 containing InitCacher's
initial 1), while the period built exactly as the claim states it — only the
accumulated segment times plus 1000·Σ delays, with no other term — is 2010 ms.
The extra millisecond per per-map spline falsifies the claim. -/
theorem insertTransporter_period_claim_ce :
    InsertTransporter ceSegLen 10 ceGoInfo [ceNodeA, ceNodeB] =
        .ok ⟨20808, [0, 0], [⟨[⟨0, 0, 0⟩, ⟨3, 4, 0⟩]⟩], 2011⟩ ∧
      claimedPeriodC1 ceSegLen 100 [ceNodeA, ceNodeB] = 2010 ∧
      ((2011 : Nat) : Int) ≠ claimedPeriodC1 ceSegLen 100 [ceNodeA, ceNodeB] := by
  have h2 : claimedPeriodC1 ceSegLen 100 [ceNodeA, ceNodeB] = 2010 := by
    norm_num [claimedPeriodC1, runsOf, ceSegLen, ceNodeA, ceNodeB, ratTrunc]
  refine ⟨insertTransporter_ce_eval, h2, ?_⟩
  rw [h2]
  norm_num

/-- Witness for the amended claim C1: on the concrete single-map path the
stored period 2011 equals the spline total 11 (initialised at 1) plus
1000 · 2 delay seconds. -/
theorem insertTransporter_period_amended_witness :
    ((2011 : Nat) : Int) = splineLength (100 : ℚ) [(1 : ℚ)] + 1000 * (2 : Int) := by
  have h := insertTransporter_period_amended ceSegLen 10 ceGoInfo
    [ceNodeA, ceNodeB] [] 0 0 ⟨20808, [0, 0], [⟨[⟨0, 0, 0⟩, ⟨3, 4, 0⟩]⟩], 2011⟩
    (by simp)
    (by
      intro n hn
      simp only [List.mem_cons, List.not_mem_nil, or_false] at hn
      rcases hn with rfl | rfl <;> rfl)
    (by simp)
    (fun hh => absurd rfl hh)
    (by rw [List.append_nil]; exact insertTransporter_ce_eval)
  simpa [ceSegLen, ceNodeA, ceNodeB] using h

/-- The startup loop over MO_TRANSPORT game-object entries: each entry is
compiled with TransportMgr::InsertTransporter. A MANGOS_ASSERT failure inside
InsertTransporter aborts the server process, so an error on one entry aborts
the whole load. -/
def LoadTransporters (segLenOf : List Vec3 → List ℚ) (pathTableSize : Nat) :
    List (GameObjectInfo × List TaxiPathNode) →
      Except InsertError (List StaticTransportInfo)
  | [] => .ok []
  | (g, p) :: rest =>
    match InsertTransporter segLenOf pathTableSize g p with
    | .error e => .error e
    | .ok info =>
      match LoadTransporters segLenOf pathTableSize rest with
      | .error e => .error e
      | .ok infos => .ok (info :: infos)

/-- TransportMgr::InitializeTransporters (TransportMgr.cpp 101-123): for each
compiled entry, look up the map entry of its first map; a missing map entry is
logged and the entry skipped (startup continues); a non-continental map is
skipped; otherwise a transporter is created on that map at the first point of
spline 0. The map store and the continent flag are oracles (DBC data, outside
src/). Returns the created transporters as (entry, mapId, start position). -/
def InitializeTransporters (mapEntryExists isContinent : Nat → Bool) :
    List StaticTransportInfo → List (Nat × Nat × Vec3)
  | [] => []
  | info :: rest =>
    let m := info.mapIDs.getD 0 0
    if mapEntryExists m = false then
      InitializeTransporters mapEntryExists isContinent rest
    else if isContinent m = false then
      InitializeTransporters mapEntryExists isContinent rest
    else
      (info.goInfoId, m, (info.splines.getD 0 ⟨[]⟩).firstPoint) ::
        InitializeTransporters mapEntryExists isContinent rest

/-- A segment-length oracle under which a 2-control spline is degenerate
(segment length 0) while longer control arrays are fine. -/
def ceSegLenDeg : List Vec3 → List ℚ :=
  fun cs => if cs.length = 2 then [0] else [5]

/-- A third node for a well-formed three-node path. -/
def ceNodeC : TaxiPathNode := ⟨0, 6, 8, 0, 0, 0, 0, 0⟩

/-- Claim C6 (counterexample): a transport whose compiled spline has total
length ≤ 1 (DegenerateSegment) hits a fatal MANGOS_ASSERT, not a log-and-skip:
loading a degenerate entry followed by a perfectly good entry aborts startup,
and the good transport is not loaded. -/
theorem startup_errors_claim_ce :
    LoadTransporters ceSegLenDeg 10
        [(⟨1, 15, 0, 100⟩, [ceNodeA, ceNodeB]),
          (⟨2, 15, 0, 100⟩, [ceNodeA, ceNodeB, ceNodeC])] =
      .error .degenerateSpline := by
  norm_num [LoadTransporters, InsertTransporter, ceSegLenDeg, ceNodeA, ceNodeB,
    GAMEOBJECT_TYPE_MO_TRANSPORT, splitStep, splineLength, ratTrunc, List.set]

/-- Claim C6 (amended): a compile-time path error (bad template, empty path,
degenerate spline) is a fatal assertion that aborts the startup loop — the
remaining transports do not load; only the invalid-map check of
InitializeTransporters is log-and-skip: entries whose first map is missing or
non-continental are skipped and all remaining transports are still
initialized. -/
theorem startup_errors_amended :
    (∀ (segLenOf : List Vec3 → List ℚ) (ts : Nat) (g : GameObjectInfo)
        (p : List TaxiPathNode) (rest : List (GameObjectInfo × List TaxiPathNode))
        (e : InsertError),
      InsertTransporter segLenOf ts g p = .error e →
      LoadTransporters segLenOf ts ((g, p) :: rest) = .error e) ∧
    (∀ (ex cont : Nat → Bool) (infos : List StaticTransportInfo),
      InitializeTransporters ex cont infos =
        (infos.filter (fun i => ex (i.mapIDs.getD 0 0) && cont (i.mapIDs.getD 0 0))).map
          (fun i => (i.goInfoId, i.mapIDs.getD 0 0, (i.splines.getD 0 ⟨[]⟩).firstPoint))) := by
  constructor
  · intro segLenOf ts g p rest e he
    simp [LoadTransporters, he]
  · intro ex cont infos
    induction infos with
    | nil => rfl
    | cons info rest ih =>
      rw [InitializeTransporters, List.filter_cons]
      cases hex : ex (info.mapIDs.getD 0 0) with
      | false =>
        simp only [List.getD_eq_getElem?_getD] at hex
        simp [hex, ih]
      | true =>
        cases hcont : cont (info.mapIDs.getD 0 0) with
        | false =>
          simp only [List.getD_eq_getElem?_getD] at hex hcont
          simp [hex, hcont, ih]
        | true =>
          simp only [List.getD_eq_getElem?_getD] at hex hcont
          simp [hex, hcont, ih]

/-- Witness for the amended claim C6: an empty path aborts the load of the
entry list (the later good entry is never reached), and initialization skips
a transporter whose first map has no map entry while still creating the next
one. -/
theorem startup_errors_amended_witness :
    LoadTransporters ceSegLen 10
        [(⟨1, 15, 0, 100⟩, []), (⟨2, 15, 0, 100⟩, [ceNodeA, ceNodeB])] =
        .error .emptyPath ∧
      InitializeTransporters (fun m => decide (m = 5)) (fun _ => true)
          [⟨1, [3, 3], [⟨[⟨1, 1, 1⟩]⟩], 100⟩, ⟨2, [5, 5], [⟨[⟨2, 2, 2⟩]⟩], 200⟩] =
        [(2, 5, ⟨2, 2, 2⟩)] := by
  constructor
  · exact startup_errors_amended.1 ceSegLen 10 ⟨1, 15, 0, 100⟩ []
      [(⟨2, 15, 0, 100⟩, [ceNodeA, ceNodeB])] .emptyPath
      (by norm_num [InsertTransporter, GAMEOBJECT_TYPE_MO_TRANSPORT])
  · have h := startup_errors_amended.2 (fun m => decide (m = 5)) (fun _ => true)
      [⟨1, [3, 3], [⟨[⟨1, 1, 1⟩]⟩], 100⟩, ⟨2, [5, 5], [⟨[⟨2, 2, 2⟩]⟩], 200⟩]
    simpa [SplineModel.firstPoint] using h

/-- The observable outcome of TransportMgr::ReachedLastWaypoint: the fresh
carrier created on the next map (entry, map id, start position, period), or
none when the transport stays on its single map; `oldDestroyed` records
whether the old carrier instance is deleted. -/
structure HandoffOutcome where
  created : Option (Nat × Nat × Vec3 × Nat)
  oldDestroyed : Bool
deriving DecidableEq

/-- TransportMgr::GetTransportSpline (TransportMgr.cpp 220-236): find the
first index of mapId in the mapIDs array; out of range gives NULL, otherwise
splineList[mapIdx] (modelled as `List.get?`, which is also none for an unused
slot). -/
def GetTransportSpline (info : StaticTransportInfo) (mapId : Nat) :
    Option SplineModel :=
  let mapIdx := info.mapIDs.findIdx (fun m => m = mapId)
  if mapIdx < info.mapIDs.length then info.splines.get? mapIdx else none

/-- TransportMgr::ReachedLastWaypoint (TransportMgr.cpp 152-218): find the
first index of the carrier's current map in the mapIDs array, advance it by
one modulo the array length (`++mapIdx %= MAX_MAPS_PER_MOT`; the array has
length MAX_MAPS_PER_MOT); if the map at the new index is the current map the
transport moves on one map only and nothing happens; otherwise a new
transporter is created on that map at getPoint(first()) of its spline with the
same goInfo and period, and the old carrier is deleted after the passengers
are processed. -/
def ReachedLastWaypoint (info : StaticTransportInfo) (currentMapId : Nat) :
    HandoffOutcome :=
  let mapIdx := info.mapIDs.findIdx (fun m => m = currentMapId)
  let nextIdx := (mapIdx + 1) % info.mapIDs.length
  if info.mapIDs.getD nextIdx 0 = currentMapId then ⟨none, false⟩
  else
    ⟨some (info.goInfoId, info.mapIDs.getD nextIdx 0,
      (info.splines.getD nextIdx ⟨[]⟩).firstPoint, info.period), true⟩

/-- Claim C3: with the source's MAX_MAPS_PER_MOT = 2 map slots, the next map
is the successor of the current map in the ordered map-id list, wrapping
modulo the list length. When that next map id equals the current map id no
handoff happens and the old carrier survives; otherwise a fresh carrier is
created on the next map at the first control point of that map's spline (the
same spline GetTransportSpline returns for that map) with the same template
entry and period, and the old carrier is destroyed. -/
theorem reachedLastWaypoint_next_map :
    ∀ (entry per m1 m2 : Nat) (s0 s1 : SplineModel),
      (m1 = m2 →
        ReachedLastWaypoint ⟨entry, [m1, m2], [s0, s1], per⟩ m1 = ⟨none, false⟩) ∧
      (m1 ≠ m2 →
        ReachedLastWaypoint ⟨entry, [m1, m2], [s0, s1], per⟩ m1 =
            ⟨some (entry, m2, s1.firstPoint, per), true⟩ ∧
          GetTransportSpline ⟨entry, [m1, m2], [s0, s1], per⟩ m2 = some s1) ∧
      (m1 ≠ m2 →
        ReachedLastWaypoint ⟨entry, [m1, m2], [s0, s1], per⟩ m2 =
            ⟨some (entry, m1, s0.firstPoint, per), true⟩ ∧
          GetTransportSpline ⟨entry, [m1, m2], [s0, s1], per⟩ m1 = some s0) := by
  intro entry per m1 m2 s0 s1
  refine ⟨?_, ?_, ?_⟩
  · intro h
    subst h
    simp [ReachedLastWaypoint, List.findIdx_cons]
  · intro h
    constructor
    · simp [ReachedLastWaypoint, List.findIdx_cons, h, Ne.symm h]
    · simp [GetTransportSpline, List.findIdx_cons, h, Ne.symm h]
  · intro h
    constructor
    · simp [ReachedLastWaypoint, List.findIdx_cons, h, Ne.symm h]
    · simp [GetTransportSpline, List.findIdx_cons, h, Ne.symm h]

/-- Witness for claim C3: a two-map transport (maps 0 and 1) reaching the last
waypoint on map 0 rebuilds itself on map 1 at that spline's first control
point with the same entry 20808 and period 2011, destroying the old carrier. -/
theorem reachedLastWaypoint_next_map_witness :
    ReachedLastWaypoint
        ⟨20808, [0, 1], [⟨[⟨0, 0, 0⟩]⟩, ⟨[⟨5, 6, 7⟩]⟩], 2011⟩ 0 =
      ⟨some (20808, 1, ⟨5, 6, 7⟩, 2011), true⟩ :=
  ((reachedLastWaypoint_next_map 20808 2011 0 1 ⟨[⟨0, 0, 0⟩]⟩
    ⟨[⟨5, 6, 7⟩]⟩).2.1 (by simp)).1

/-- The aspects of a passenger world object that the teleport and migration
paths read: identity, whether it is a player, and whether it is dead but not
yet a ghost. -/
structure WObj where
  id : Nat
  isPlayer : Bool
  deadNonGhost : Bool
deriving DecidableEq

/-- Observable side effects of the teleport and motion-update paths. -/
inductive TransEvent
  | script (eventId : Nat) (departure : Bool)
  | resurrected (pid : Nat)
  | teleported (pid : Nat) (mapId : Nat) (x y z o : ℚ)
  | repopped (pid : Nat)
deriving DecidableEq

/-- The passenger loop of Transport::TeleportTransport (Transports.cpp
342-377), iterating over a copy of the passenger map: a dead-but-not-ghost
player is resurrected at 100%; each player is teleported to the new map at the
carrier target position plus its rotated local offset, with orientation
NormalizeOrientation(o + lo); when the teleport fails the player repops at the
nearest graveyard and is unboarded (RepopAtGraveyard + UnBoardPassenger);
non-player passengers are left alone (the ToDo in the source). `teleOk` is an
oracle for Player::TeleportTo's result (Player.cpp is outside src/). Returns
the passengers still boarded and the events in order. -/
def ProcessTeleportPassengers (teleOk : Nat → Bool) (twoPi : ℚ)
    (o cosO sinO : ℚ) (newMapid : Nat) (x y z : ℚ) :
    List (WObj × TransportInfo) → List (WObj × TransportInfo) × List TransEvent
  | [] => ([], [])
  | (w, ti) :: rest =>
    let done := ProcessTeleportPassengers teleOk twoPi o cosO sinO newMapid x y z rest
    if w.isPlayer then
      let ev1 : List TransEvent :=
        if w.deadNonGhost then [.resurrected w.id] else []
      let r := RotateLocalPosition cosO sinO ti.lx ti.ly
      if teleOk w.id then
        ((w, ti) :: done.1,
          ev1 ++ [.teleported w.id newMapid (x + r.1) (y + r.2) (z + ti.lz)
            (NormalizeOrientation twoPi (o + ti.lo))] ++ done.2)
      else
        (done.1, ev1 ++ [.repopped w.id] ++ done.2)
    else ((w, ti) :: done.1, done.2)

/-- The carrier state Transport::TeleportTransport reads and changes: current
map, position, orientation, the cached cos/sin, and the passenger map. -/
structure TransporterState where
  mapId : Nat
  x : ℚ
  y : ℚ
  z : ℚ
  o : ℚ
  cosO : ℚ
  sinO : ℚ
  passengers : List (WObj × TransportInfo)
deriving DecidableEq

/-- Transport::TeleportTransport (Transports.cpp 337-390): relocate to the
target position, process the copied passenger map, then move the carrier to
the new map. -/
def TeleportTransport (teleOk : Nat → Bool) (twoPi : ℚ)
    (st : TransporterState) (newMapid : Nat) (x y z : ℚ) :
    TransporterState × List TransEvent :=
  let pr := ProcessTeleportPassengers teleOk twoPi st.o st.cosO st.sinO
    newMapid x y z st.passengers
  ({ st with mapId := newMapid, x := x, y := y, z := z, passengers := pr.1 },
    pr.2)

theorem processTeleport_kept (teleOk : Nat → Bool) (twoPi : ℚ)
    (o cosO sinO : ℚ) (newMapid : Nat) (x y z : ℚ) :
    ∀ ps : List (WObj × TransportInfo),
      (ProcessTeleportPassengers teleOk twoPi o cosO sinO newMapid x y z ps).1 =
        ps.filter (fun q => !(q.1.isPlayer && !teleOk q.1.id)) := by
  intro ps
  induction ps with
  | nil => rfl
  | cons hd rest ih =>
    obtain ⟨w, ti⟩ := hd
    rw [ProcessTeleportPassengers, List.filter_cons]
    cases hp : w.isPlayer with
    | false => simp [hp, ih]
    | true =>
      cases ht : teleOk w.id with
      | false => simp [hp, ht, ih]
      | true => simp [hp, ht, ih]

theorem processTeleport_repop (teleOk : Nat → Bool) (twoPi : ℚ)
    (o cosO sinO : ℚ) (newMapid : Nat) (x y z : ℚ) :
    ∀ (ps : List (WObj × TransportInfo)) (w : WObj) (ti : TransportInfo),
      (w, ti) ∈ ps → w.isPlayer = true → teleOk w.id = false →
      TransEvent.repopped w.id ∈
        (ProcessTeleportPassengers teleOk twoPi o cosO sinO newMapid x y z ps).2 := by
  intro ps
  induction ps with
  | nil =>
    intro w ti hw
    simp at hw
  | cons hd rest ih =>
    obtain ⟨w2, ti2⟩ := hd
    intro w ti hw hp ht
    rw [ProcessTeleportPassengers]
    rcases List.mem_cons.mp hw with heq | hmem
    · injection heq with h1 h2
      subst h1
      subst h2
      simp [hp, ht]
    · have hrec := ih w ti hmem hp ht
      cases hp2 : w2.isPlayer with
      | false => simpa [hp2] using hrec
      | true =>
        cases ht2 : teleOk w2.id with
        | false => simp [hp2, ht2, hrec]
        | true => simp [hp2, ht2, hrec]

/-- Claim C7: during the cross-map teleport, every player passenger whose
teleport fails has the graveyard fallback invoked (a repop event) and is
removed from the carrier; the final passenger map is exactly the original one
minus the failed players, so the handoff completes for the remaining
passengers; and the carrier itself finishes on the new map at the target
position. -/
theorem teleportTransport_graveyard_fallback :
    ∀ (teleOk : Nat → Bool) (twoPi : ℚ) (st : TransporterState)
      (newMapid : Nat) (x y z : ℚ),
      (TeleportTransport teleOk twoPi st newMapid x y z).1.passengers =
        st.passengers.filter (fun q => !(q.1.isPlayer && !teleOk q.1.id)) ∧
      (∀ (w : WObj) (ti : TransportInfo),
        (w, ti) ∈ st.passengers → w.isPlayer = true → teleOk w.id = false →
        TransEvent.repopped w.id ∈
            (TeleportTransport teleOk twoPi st newMapid x y z).2 ∧
          (w, ti) ∉ (TeleportTransport teleOk twoPi st newMapid x y z).1.passengers) ∧
      (TeleportTransport teleOk twoPi st newMapid x y z).1.mapId = newMapid ∧
      (TeleportTransport teleOk twoPi st newMapid x y z).1.x = x ∧
      (TeleportTransport teleOk twoPi st newMapid x y z).1.y = y ∧
      (TeleportTransport teleOk twoPi st newMapid x y z).1.z = z := by
  intro teleOk twoPi st newMapid x y z
  refine ⟨?_, ?_, rfl, rfl, rfl, rfl⟩
  · exact processTeleport_kept teleOk twoPi st.o st.cosO st.sinO newMapid x y z
      st.passengers
  · intro w ti hmem hp ht
    constructor
    · exact processTeleport_repop teleOk twoPi st.o st.cosO st.sinO newMapid
        x y z st.passengers w ti hmem hp ht
    · intro hin
      rw [show (TeleportTransport teleOk twoPi st newMapid x y z).1.passengers =
          (ProcessTeleportPassengers teleOk twoPi st.o st.cosO st.sinO newMapid
            x y z st.passengers).1 from rfl,
        processTeleport_kept] at hin
      have := List.of_mem_filter hin
      rw [hp, ht] at this
      simp at this

/-- Witness for claim C7: one failed player (id 7, teleport refused) repops at
the graveyard and leaves the carrier; the carrier ends on map 1 at
(10, 20, 30). -/
theorem teleportTransport_graveyard_fallback_witness :
    TransEvent.repopped 7 ∈
        (TeleportTransport (fun _ => false) 7
          ⟨0, 0, 0, 0, 0, 1, 0, [(⟨7, true, false⟩, ⟨7, 1, 1, 2, 3, 0, 255⟩)]⟩
          1 10 20 30).2 ∧
      (⟨7, true, false⟩, (⟨7, 1, 1, 2, 3, 0, 255⟩ : TransportInfo)) ∉
        (TeleportTransport (fun _ => false) 7
          ⟨0, 0, 0, 0, 0, 1, 0, [(⟨7, true, false⟩, ⟨7, 1, 1, 2, 3, 0, 255⟩)]⟩
          1 10 20 30).1.passengers :=
  (teleportTransport_graveyard_fallback (fun _ => false) 7
    ⟨0, 0, 0, 0, 0, 1, 0, [(⟨7, true, false⟩, ⟨7, 1, 1, 2, 3, 0, 255⟩)]⟩
    1 10 20 30).2.1 ⟨7, true, false⟩ ⟨7, 1, 1, 2, 3, 0, 255⟩
    (by simp) rfl rfl

/-- One waypoint of the transport path (WayPoint in Transports.h): target map,
position, teleport flag and event ids. -/
structure WayPointRec where
  mapid : Nat
  x : ℚ
  y : ℚ
  z : ℚ
  teleport : Bool
  arrivalEventID : Nat
  departureEventID : Nat
deriving DecidableEq

/-- A default waypoint used only as the out-of-range fallback of list
indexing. -/
def wpDefault : WayPointRec := ⟨0, 0, 0, 0, false, 0, 0⟩

/-- The state Transport::Update reads and writes: the m_WayPoints map (time
keys in ascending order, as std::map), the m_curr and m_next iterators
(indices into it), m_pathTime, m_period, and the carrier observables (map,
position, orientation cache, passengers, fired events). -/
structure TransportMoveState where
  wayPoints : List (Nat × WayPointRec)
  curr : Nat
  next : Nat
  pathTime : Nat
  period : Nat
  mapId : Nat
  x : ℚ
  y : ℚ
  z : ℚ
  o : ℚ
  cosO : ℚ
  sinO : ℚ
  passengers : List (WObj × TransportInfo)
  events : List TransEvent
deriving DecidableEq

/-- The time key of m_curr. -/
def currTime (s : TransportMoveState) : Nat :=
  (s.wayPoints.getD s.curr (0, wpDefault)).1

/-- The time key of m_next. -/
def nextTime (s : TransportMoveState) : Nat :=
  (s.wayPoints.getD s.next (0, wpDefault)).1

/-- The while condition of Transport::Update (Transports.cpp 398):
`((m_timer - m_curr->first) % m_pathTime) > ((m_next->first - m_curr->first) % m_pathTime)`
in uint32 arithmetic. -/
def updateGuard (timer : Nat) (s : TransportMoveState) : Bool :=
  usub timer (currTime s) % s.pathTime > usub (nextTime s) (currTime s) % s.pathTime

/-- Transport::DoEventIfAny (Transports.cpp 462-471): fire the node's
departure or arrival event when its id is non-zero. -/
def DoEventIfAny (s : TransportMoveState) (wp : WayPointRec) (departure : Bool) :
    TransportMoveState :=
  let eid := if departure then wp.departureEventID else wp.arrivalEventID
  if eid ≠ 0 then { s with events := s.events ++ [.script eid departure] } else s

/-- One iteration of the while body of Transport::Update (Transports.cpp
399-426): departure event of the old node, MoveToNextWayPoint (m_curr :=
m_next; m_next advances, wrapping past the end to begin), arrival event of the
new node, then either the cross-map/teleport step (when the node's map differs
from the carrier's or the node is flagged teleport) or a relocation to the
node's coordinates followed by the passenger-frame refresh, which moves no
passenger in or out. -/
def UpdateStep (teleOk : Nat → Bool) (twoPi : ℚ) (s : TransportMoveState) :
    TransportMoveState :=
  let cw := (s.wayPoints.getD s.curr (0, wpDefault)).2
  let s1 := DoEventIfAny s cw true
  let curr2 := s1.next
  let next2 := if s1.next + 1 = s1.wayPoints.length then 0 else s1.next + 1
  let s2 := { s1 with curr := curr2, next := next2 }
  let cw2 := (s2.wayPoints.getD curr2 (0, wpDefault)).2
  let s3 := DoEventIfAny s2 cw2 false
  if cw2.mapid ≠ s3.mapId ∨ cw2.teleport then
    let tp := TeleportTransport teleOk twoPi
      ⟨s3.mapId, s3.x, s3.y, s3.z, s3.o, s3.cosO, s3.sinO, s3.passengers⟩
      cw2.mapid cw2.x cw2.y cw2.z
    { s3 with
        mapId := tp.1.mapId
        x := tp.1.x
        y := tp.1.y
        z := tp.1.z
        passengers := tp.1.passengers
        events := s3.events ++ tp.2 }
  else
    { s3 with x := cw2.x, y := cw2.y, z := cw2.z }

/-- The while loop of Transport::Update, bounded by fuel. -/
def UpdateLoop (teleOk : Nat → Bool) (twoPi : ℚ) :
    Nat → Nat → TransportMoveState → TransportMoveState
  | 0, _, s => s
  | fuel + 1, timer, s =>
    if updateGuard timer s then
      UpdateLoop teleOk twoPi fuel timer (UpdateStep teleOk twoPi s)
    else s

/-- Transport::Update (Transports.cpp 392-427): nothing happens with at most
one waypoint; otherwise `m_timer = getMSTime() % m_period` and the while loop
runs. The signature is `Update(update_diff, p_time)` and neither parameter is
read: the update is driven purely by the wall clock, exactly as in the
source. -/
def TransportUpdate (teleOk : Nat → Bool) (twoPi : ℚ) (fuel : Nat)
    (msTime updateDiff : Nat) (s : TransportMoveState) : TransportMoveState :=
  if s.wayPoints.length ≤ 1 then s
  else UpdateLoop teleOk twoPi fuel (msTime % s.period) s

/-- A concrete reachable motion state: two waypoints on map 0 at times 0 and
10, pathTime = period = 20, currently settled at the first waypoint. -/
def ceMoveState : TransportMoveState :=
  ⟨[(0, ⟨0, 0, 0, 0, false, 0, 0⟩), (10, ⟨0, 5, 0, 0, false, 0, 0⟩)],
    0, 1, 20, 20, 0, 0, 0, 0, 0, 1, 0, [], []⟩

set_option maxRecDepth 8000 in
/-- Claim C8 (counterexample): the motion update ignores its diff argument and
is driven by the wall clock, so calling it with diff = 0 does not leave the
state unchanged: at wall time 15 ms the settled state above advances its
current waypoint from index 0 to index 1 even though diff = 0. -/
theorem transportUpdate_diff_zero_ce :
    (TransportUpdate (fun _ => true) 7 4 15 0 ceMoveState).curr = 1 ∧
      ceMoveState.curr = 0 ∧
      TransportUpdate (fun _ => true) 7 4 15 0 ceMoveState ≠ ceMoveState := by
  have hc : (TransportUpdate (fun _ => true) 7 4 15 0 ceMoveState).curr = 1 := by
    norm_num [TransportUpdate, ceMoveState, UpdateLoop, updateGuard, usub,
      currTime, nextTime, UpdateStep, DoEventIfAny, wpDefault]
  refine ⟨hc, rfl, fun he => ?_⟩
  rw [he] at hc
  simp [ceMoveState] at hc

/-- Claim C8 (amended): the motion update does not read diff at all — two
calls with different diff values at the same wall time produce exactly the
same state — and the state is unchanged precisely when the wall-clock timer
has not passed the next waypoint time: a settled state (while-guard false) is
left untouched by an update at that wall time, whatever the diff. -/
theorem transportUpdate_diff_amended :
    ∀ (teleOk : Nat → Bool) (twoPi : ℚ) (fuel msTime d1 d2 : Nat)
      (s : TransportMoveState),
      TransportUpdate teleOk twoPi fuel msTime d1 s =
        TransportUpdate teleOk twoPi fuel msTime d2 s ∧
      (updateGuard (msTime % s.period) s = false →
        TransportUpdate teleOk twoPi fuel msTime d1 s = s) := by
  intro teleOk twoPi fuel msTime d1 d2 s
  refine ⟨rfl, ?_⟩
  intro hguard
  rw [TransportUpdate]
  split_ifs with hlen
  · rfl
  · cases fuel with
    | zero => rfl
    | succ f => simp [UpdateLoop, hguard]

/-- Witness for the amended claim C8: at wall time 5 ms the settled concrete
state is left unchanged by the update. -/
theorem transportUpdate_diff_amended_witness :
    TransportUpdate (fun _ => true) 7 4 5 0 ceMoveState = ceMoveState :=
  (transportUpdate_diff_amended (fun _ => true) 7 4 5 0 0 ceMoveState).2
    (by norm_num [updateGuard, usub, currTime, nextTime, ceMoveState, wpDefault])

/-- Find the first player in the passenger map, as the migration loop's scan
does. -/
def findFirstPlayer : List (WObj × TransportInfo) → Option WObj
  | [] => none
  | (w, _) :: rest => if w.isPlayer then some w else findFirstPlayer rest

/-- Remove the first entry of a given world object from the passenger map
(Player::TeleportTo unboards the passenger). -/
def eraseByObj (w : WObj) : List (WObj × TransportInfo) → List (WObj × TransportInfo)
  | [] => []
  | (w2, ti) :: rest => if w2 = w then rest else (w2, ti) :: eraseByObj w rest

/-- The player-migration loop of TransportMgr::ReachedLastWaypoint
(TransportMgr.cpp 186-210): scan the passenger map from begin(); when a player
is found it is teleported to the next map — Player::TeleportTo unboards it
(the in-source comment at line 201; Player.cpp is outside src/) — and the
iterator restarts at begin(); non-player passengers are stepped over; the loop
ends when no player remains. The fuel bounds the number of removals. -/
def MigratePlayersLoop (fuel : Nat) (ps : List (WObj × TransportInfo)) :
    List (WObj × TransportInfo) :=
  match fuel with
  | 0 => ps
  | fuel + 1 =>
    match findFirstPlayer ps with
    | none => ps
    | some w => MigratePlayersLoop fuel (eraseByObj w ps)

/-- Modelled from the spec (§4.6 step 6): GameObject::Delete and the owning
map's teardown path (both outside src/) release every remaining passenger
before TransportBase's destructor runs — the players were migrated by the
loop above, and the non-player passengers are released by the map destruction
path. -/
def DeleteCarrierReleasing (ps : List (WObj × TransportInfo)) :
    List (WObj × TransportInfo) :=
  []

/-- TransportBase::~TransportBase (TransportSystem.cpp 47-50): the destructor
asserts that no passengers remain, `MANGOS_ASSERT(m_passengers.size() == 0)`. -/
def DestructorAssertionHolds (ps : List (WObj × TransportInfo)) : Prop :=
  ps.length = 0

/-- The number of player passengers. -/
def playerCount (ps : List (WObj × TransportInfo)) : Nat :=
  (ps.filter (fun q => q.1.isPlayer)).length

theorem findFirstPlayer_isPlayer :
    ∀ (ps : List (WObj × TransportInfo)) (w : WObj),
      findFirstPlayer ps = some w → w.isPlayer = true := by
  intro ps
  induction ps with
  | nil =>
    intro w h
    simp [findFirstPlayer] at h
  | cons hd rest ih =>
    obtain ⟨w2, ti⟩ := hd
    intro w h
    rw [findFirstPlayer] at h
    by_cases hp : w2.isPlayer
    · rw [if_pos hp] at h
      injection h with h
      rw [← h]
      exact hp
    · rw [if_neg hp] at h
      exact ih w h

theorem findFirstPlayer_none_filter :
    ∀ ps : List (WObj × TransportInfo),
      findFirstPlayer ps = none →
      ps.filter (fun q => q.1.isPlayer = false) = ps := by
  intro ps
  induction ps with
  | nil =>
    intro h
    rfl
  | cons hd rest ih =>
    obtain ⟨w2, ti⟩ := hd
    intro h
    rw [findFirstPlayer] at h
    by_cases hp : w2.isPlayer
    · rw [if_pos hp] at h
      cases h
    · rw [if_neg hp] at h
      have hp2 : w2.isPlayer = false := by simpa using hp
      rw [List.filter_cons, if_pos (by simp [hp2]), ih h]

theorem eraseByObj_filter_nonplayer :
    ∀ (ps : List (WObj × TransportInfo)) (w : WObj), w.isPlayer = true →
      (eraseByObj w ps).filter (fun q => q.1.isPlayer = false) =
        ps.filter (fun q => q.1.isPlayer = false) := by
  intro ps
  induction ps with
  | nil =>
    intro w hw
    rfl
  | cons hd rest ih =>
    obtain ⟨w2, ti⟩ := hd
    intro w hw
    rw [eraseByObj]
    by_cases he : w2 = w
    · rw [if_pos he, List.filter_cons]
      subst he
      simp [hw]
    · rw [if_neg he, List.filter_cons, List.filter_cons, ih w hw]

theorem findFirstPlayer_erase_count :
    ∀ (ps : List (WObj × TransportInfo)) (w : WObj),
      findFirstPlayer ps = some w →
      playerCount (eraseByObj w ps) + 1 = playerCount ps := by
  intro ps
  induction ps with
  | nil =>
    intro w h
    simp [findFirstPlayer] at h
  | cons hd rest ih =>
    obtain ⟨w2, ti⟩ := hd
    intro w h
    rw [findFirstPlayer] at h
    by_cases hp : w2.isPlayer
    · rw [if_pos hp] at h
      injection h with h
      subst h
      rw [eraseByObj, if_pos rfl]
      simp [playerCount, List.filter_cons, hp]
    · rw [if_neg hp] at h
      have hw : w.isPlayer = true := findFirstPlayer_isPlayer rest w h
      have hne : w2 ≠ w := by
        intro hcontra
        rw [hcontra, hw] at hp
        exact hp rfl
      rw [eraseByObj, if_neg hne, playerCount, List.filter_cons,
        playerCount, List.filter_cons]
      simp only [hp]
      simp only [Bool.false_eq_true, if_false]
      exact ih w h

theorem migratePlayersLoop_filter :
    ∀ (fuel : Nat) (ps : List (WObj × TransportInfo)),
      playerCount ps ≤ fuel →
      MigratePlayersLoop fuel ps = ps.filter (fun q => q.1.isPlayer = false) := by
  intro fuel
  induction fuel with
  | zero =>
    intro ps hc
    have h0 : playerCount ps = 0 := Nat.le_zero.mp hc
    rw [MigratePlayersLoop]
    cases hf : findFirstPlayer ps with
    | none => exact (findFirstPlayer_none_filter ps hf).symm
    | some w =>
      have := findFirstPlayer_erase_count ps w hf
      rw [h0] at this
      exact absurd this (by omega)
  | succ f ih =>
    intro ps hc
    rw [MigratePlayersLoop]
    cases hf : findFirstPlayer ps with
    | none => exact (findFirstPlayer_none_filter ps hf).symm
    | some w =>
      have hcount := findFirstPlayer_erase_count ps w hf
      have hw : w.isPlayer = true := findFirstPlayer_isPlayer ps w hf
      show MigratePlayersLoop f (eraseByObj w ps) =
        ps.filter (fun q => q.1.isPlayer = false)
      rw [ih (eraseByObj w ps) (by omega)]
      exact eraseByObj_filter_nonplayer ps w hw

/-- Claim C9 (spec-modelled in part): after the cross-map migration loop all
player passengers have been unboarded (only non-players remain, each still
boarded exactly as before), and the carrier-destruction path — which per the
spec releases the remaining non-player passengers before TransportBase's
destructor runs — leaves the passenger map empty, so the destructor's
MANGOS_ASSERT(m_passengers.size() == 0) never fires. -/
theorem carrier_destruction_passengers_empty :
    ∀ ps : List (WObj × TransportInfo),
      MigratePlayersLoop ps.length ps =
        ps.filter (fun q => q.1.isPlayer = false) ∧
      DestructorAssertionHolds
        (DeleteCarrierReleasing (MigratePlayersLoop ps.length ps)) := by
  intro ps
  have hle : playerCount ps ≤ ps.length := by
    rw [playerCount]
    exact List.length_filter_le _ _
  exact ⟨migratePlayersLoop_filter ps.length ps hle, rfl⟩
